import Mathlib

/-!
Verification of the streaming-connection and strategy-engine core of the
auto-coin-trader repository, as a shallow embedding in Lean 4.

Python strings are modelled as lists of characters (`PyStr`); Python's
`str.split`, substring membership (`in`), `str.upper` and `str.lower` are
embedded as the corresponding recursive functions on character lists.
Python numbers on the strategy/time paths are modelled as exact rationals
or integers; `datetime.now(UTC)` is modelled by passing an explicit clock
value into each call (calls are treated as instantaneous).  Fallible code
is modelled with `Except`/`Option`, and `try/except` blocks by total
functions that fold the handler into the result.
-/

namespace AutoTrader

/-- Embedding of a Python `str` as a list of characters. -/
abbrev PyStr := List Char

/-- Embedding of Python `str.lower()` (ASCII case folding). -/
def pyLower (s : PyStr) : PyStr := s.map Char.toLower

/-- Embedding of Python `str.upper()` (ASCII case folding). -/
def pyUpper (s : PyStr) : PyStr := s.map Char.toUpper

/-- If `pat` is a prefix of `s`, strip it and return the remainder. -/
def dropPre : PyStr → PyStr → Option PyStr
  | [], s => some s
  | _ :: _, [] => none
  | a :: as, b :: bs => if a = b then dropPre as bs else none

/-- Embedding of Python's substring test `pat in s`. -/
def pyContains (pat : PyStr) : PyStr → Bool
  | [] => pat.isEmpty
  | c :: cs => (dropPre pat (c :: cs)).isSome || pyContains pat cs

/-- Locate the first occurrence of `sep`: the part before it and the part
after it. -/
def splitLoc (sep : PyStr) : PyStr → Option (PyStr × PyStr)
  | [] => none
  | c :: cs =>
    match dropPre sep (c :: cs) with
    | some rest => some ([], rest)
    | none =>
      match splitLoc sep cs with
      | some (pre, post) => some (c :: pre, post)
      | none => none

theorem dropPre_length {pat l r : PyStr} (h : dropPre pat l = some r) :
    l.length = pat.length + r.length := by
  induction pat generalizing l with
  | nil => simp [dropPre] at h; simp [h]
  | cons a as ih =>
    cases l with
    | nil => simp [dropPre] at h
    | cons b bs =>
      by_cases hab : a = b
      · simp [dropPre, hab] at h
        have := ih h
        simp [List.length_cons, this]
        omega
      · simp [dropPre, hab] at h

theorem splitLoc_length {sep s : PyStr} {pre post : PyStr}
    (h : splitLoc sep s = some (pre, post)) :
    s.length = pre.length + sep.length + post.length := by
  induction s generalizing pre post with
  | nil => simp [splitLoc] at h
  | cons c cs ih =>
    rw [splitLoc] at h
    cases hd : dropPre sep (c :: cs) with
    | some rest =>
      rw [hd] at h
      simp at h
      obtain ⟨h1, h2⟩ := h
      have := dropPre_length hd
      subst h1 h2
      simpa using this
    | none =>
      rw [hd] at h
      cases hs : splitLoc sep cs with
      | some pr =>
        obtain ⟨pre0, post0⟩ := pr
        rw [hs] at h
        simp at h
        obtain ⟨h1, h2⟩ := h
        have := ih hs
        subst h1 h2
        simp [List.length_cons, this]
        omega
      | none => rw [hs] at h; simp at h

/-- Splitting loop on decreasing fuel (each found occurrence of a
non-empty separator strictly shortens the remainder, so fuel
`s.length` is always sufficient). -/
def pySplitAux (sep : PyStr) : Nat → PyStr → List PyStr
  | 0, s => [s]
  | fuel + 1, s =>
    match splitLoc sep s with
    | none => [s]
    | some (pre, post) => pre :: pySplitAux sep fuel post

/-- Embedding of Python's `s.split(sep)` for a non-empty separator
(Python raises on an empty separator; that case is mapped to `[s]`). -/
def pySplit (sep : PyStr) (s : PyStr) : List PyStr :=
  if sep = [] then [s] else pySplitAux sep s.length s

/-! ## Stream Connection Manager (`src/utils/websocket_client.py`)

The subscriptions dict maps stream-id strings to callbacks.  Callbacks are
carried through `_resubscribe_all` unchanged, so the model tracks the list
of keys in dict insertion order (a Python dict keeps insertion order and
re-assignment of an existing key keeps its position). -/

/-- The literal `"kline"`. -/
def klineMark : PyStr := ['k', 'l', 'i', 'n', 'e']

/-- The literal `"@kline_"`. -/
def klineSep : PyStr := ['@', 'k', 'l', 'i', 'n', 'e', '_']

/-- The literal `"markPrice"`. -/
def markPriceMark : PyStr := ['m', 'a', 'r', 'k', 'P', 'r', 'i', 'c', 'e']

/-- The literal `"@markPrice"`. -/
def markPriceSuffix : PyStr := ['@', 'm', 'a', 'r', 'k', 'P', 'r', 'i', 'c', 'e']

/-- The literal `"@"`. -/
def atSep : PyStr := ['@']

/-- The literal `"user_data"`. -/
def userDataKey : PyStr := ['u', 's', 'e', 'r', '_', 'd', 'a', 't', 'a']

/-- `self.subscriptions[stream_id] = callback`: key-level effect of dict
assignment (existing key keeps its position, new key is appended). -/
def dictInsertKey (subs : List PyStr) (k : PyStr) : List PyStr :=
  if k ∈ subs then subs else subs ++ [k]

/-- `f"{symbol.lower()}@kline_{interval}"` from `subscribe_kline`. -/
def klineStreamId (symbol interval : PyStr) : PyStr :=
  pyLower symbol ++ klineSep ++ interval

/-- `f"{symbol.lower()}@markPrice"` from `subscribe_mark_price`. -/
def markPriceStreamId (symbol : PyStr) : PyStr :=
  pyLower symbol ++ markPriceSuffix

/-- Key-level effect of `WebSocketClient.subscribe_kline` (the
`create_stream` call is external I/O with no effect on the key set). -/
def subscribeKline (subs : List PyStr) (symbol interval : PyStr) : List PyStr :=
  dictInsertKey subs (klineStreamId symbol interval)

/-- Key-level effect of `WebSocketClient.subscribe_mark_price`. -/
def subscribeMarkPrice (subs : List PyStr) (symbol : PyStr) : List PyStr :=
  dictInsertKey subs (markPriceStreamId symbol)

/-- One iteration of the loop in `WebSocketClient._resubscribe_all`:
`if "kline" in stream_id: ... elif "markPrice" in stream_id: ...
elif stream_id == "user_data": log a warning (no resubscription)`. -/
def resubscribeStep (acc : List PyStr) (k : PyStr) : List PyStr :=
  if pyContains klineMark k then
    let parts := pySplit klineSep k
    if parts.length = 2 then
      subscribeKline acc (pyUpper (parts.headD [])) (parts.getD 1 [])
    else acc
  else if pyContains markPriceMark k then
    subscribeMarkPrice acc (pyUpper ((pySplit atSep k).headD []))
  else if k = userDataKey then acc
  else acc

/-- `WebSocketClient._resubscribe_all`: copy the subscriptions, clear the
live dict, then re-subscribe each copied stream id in order. -/
def resubscribeAll (subs : List PyStr) : List PyStr :=
  subs.foldl resubscribeStep []

/-- The connection-status tags used by the client
(`"disconnected"`, `"connected"`, `"failed"`). -/
inductive ConnStatus
  | disconnected
  | connected
  | failed
deriving DecidableEq, Repr

/-- The mutable fields of `WebSocketClient` relevant to connection
resilience. -/
structure WSState where
  connectionStatus : ConnStatus
  reconnectAttempts : Nat
  maxReconnectAttempts : Nat
  baseBackoff : Nat
  maxBackoff : Nat
  running : Bool
  subscriptions : List PyStr
  lastPingTime : Option ℚ
  testnet : Bool
deriving DecidableEq, Repr

/-- `min(self.base_backoff * (2 ** (self.reconnect_attempts - 1)),
self.max_backoff)` from `_attempt_reconnect`. -/
def backoffWait (base maxB attempt : Nat) : Nat :=
  min (base * 2 ^ (attempt - 1)) maxB

/-- `WebSocketClient.connect`: on success sets status `"connected"`,
resets `reconnect_attempts` to 0 and records a ping time; on failure sets
status `"failed"`.  `ok` stands for whether the external manager
construction succeeds. -/
def wsConnect (s : WSState) (ok : Bool) (now : ℚ) : Bool × WSState :=
  if ok then
    (true, { s with connectionStatus := ConnStatus.connected,
                    reconnectAttempts := 0,
                    lastPingTime := some now })
  else
    (false, { s with connectionStatus := ConnStatus.failed })

/-- `WebSocketClient._attempt_reconnect`: if the attempt cap is reached,
stop (`self._running = False`); otherwise bump the attempt counter, wait
the backoff (no state effect), try to connect, and on success resubscribe
every previous subscription. -/
def attemptReconnect (s : WSState) (connectOk : Bool) (now : ℚ) : WSState :=
  if s.maxReconnectAttempts ≤ s.reconnectAttempts then
    { s with running := false }
  else
    let s1 := { s with reconnectAttempts := s.reconnectAttempts + 1 }
    let res := wsConnect s1 connectOk now
    if res.1 then
      { res.2 with subscriptions := resubscribeAll res.2.subscriptions }
    else res.2

/-- The dictionary returned by `WebSocketClient.get_connection_status`. -/
structure ConnStatusReport where
  status : ConnStatus
  lastPing : Option ℚ
  reconnectAttempts : Nat
  activeSubscriptions : Nat
  testnet : Bool
deriving DecidableEq, Repr

/-- `WebSocketClient.get_connection_status`. -/
def getConnectionStatus (s : WSState) : ConnStatusReport :=
  { status := s.connectionStatus,
    lastPing := s.lastPingTime,
    reconnectAttempts := s.reconnectAttempts,
    activeSubscriptions := s.subscriptions.length,
    testnet := s.testnet }

/-! ## Strategy engine base class (`src/strategies/base.py`)

`BaseStrategy` is generic over the subclass; the model is parameterized by
the kline type `K`, the subclass-private state `S`, the signal type `Sg`,
the declared `get_required_data_length()` value, and the subclass
`process_kline`, given as a function that may raise (`Except.error`
carries the exception text and the possibly part-mutated subclass
state). -/

/-- The `StrategyState` enum. -/
inductive StrategyState
  | inactive
  | active
  | paused
  | error
deriving DecidableEq, Repr

/-- The mutable fields of `BaseStrategy` touched by the ingestion path
(`K` = kline record, `M` = mark-price record, `S` = subclass state). -/
structure BaseCore (K M S : Type) where
  state : StrategyState
  klines : List K
  markPrices : List M
  sub : S
  signalsGenerated : Nat
  lastSignalTime : Option ℚ
  lastError : Option String

/-- Python `l[-n:]` for `n > 0`. -/
def takeLast (n : Nat) (l : List α) : List α := l.drop (l.length - n)

/-- `BaseStrategy.is_ready` (the mark-price path also gates on the kline
buffer, as the source does). -/
def isReady (required : Nat) (c : BaseCore K M S) : Bool :=
  decide (c.state = StrategyState.active ∧ required ≤ c.klines.length)

/-- `BaseStrategy.start` (its `except` branch is unreachable: the body
only assigns and logs). -/
def startStrategy (c : BaseCore K M S) : Bool × BaseCore K M S :=
  if c.state = StrategyState.active then (true, c)
  else (true, { c with state := StrategyState.active })

/-- The kline-buffer update of `add_kline`: append, then trim to
`max(200, 2 * required)` elements when exceeded. -/
def updatedKlines (required : Nat) (klines : List K) (k : K) : List K :=
  let klines1 := klines ++ [k]
  let maxBuf := max 200 (required * 2)
  if maxBuf < klines1.length then takeLast maxBuf klines1 else klines1

/-- The mark-price-buffer update of `add_mark_price`: append, then trim
to the last 100 elements when exceeded. -/
def updatedMarkPrices (marks : List M) (mp : M) : List M :=
  let marks1 := marks ++ [mp]
  if 100 < marks1.length then takeLast 100 marks1 else marks1

/-- `BaseStrategy.add_kline`: append to the rolling buffer, trim it,
return `[]` when not ready, otherwise run the subclass `process_kline`
with the whole `try` body's exception handler folded in (`state = ERROR`,
`last_error` set, `[]` returned — nothing propagates; `Except.error`
carries the exception text and the possibly part-mutated subclass
state). -/
def addKline (required : Nat)
    (proc : List K → K → S → Except (String × S) (List Sg × S))
    (now : ℚ) (c : BaseCore K M S) (k : K) : List Sg × BaseCore K M S :=
  let c1 := { c with klines := updatedKlines required c.klines k }
  if ¬ isReady required c1 then ([], c1)
  else
    match proc c1.klines k c1.sub with
    | Except.error es =>
      ([], { c1 with sub := es.2, state := StrategyState.error,
                     lastError := some es.1 })
    | Except.ok r =>
      let c2 := { c1 with sub := r.2 }
      if r.1.isEmpty then (r.1, c2)
      else
        (r.1, { c2 with signalsGenerated := c2.signalsGenerated + r.1.length,
                        lastSignalTime := some now })

/-- `BaseStrategy.add_mark_price`: same handler structure as `add_kline`
over the mark-price buffer (capped at 100). -/
def addMarkPrice (required : Nat)
    (procM : List M → M → S → Except (String × S) (List Sg × S))
    (now : ℚ) (c : BaseCore K M S) (mp : M) : List Sg × BaseCore K M S :=
  let c1 := { c with markPrices := updatedMarkPrices c.markPrices mp }
  if ¬ isReady required c1 then ([], c1)
  else
    match procM c1.markPrices mp c1.sub with
    | Except.error es =>
      ([], { c1 with sub := es.2, state := StrategyState.error,
                     lastError := some es.1 })
    | Except.ok r =>
      let c2 := { c1 with sub := r.2 }
      if r.1.isEmpty then (r.1, c2)
      else
        (r.1, { c2 with signalsGenerated := c2.signalsGenerated + r.1.length,
                        lastSignalTime := some now })

/-! ## Indicators (`src/utils/indicators.py`) and the VWAP strategy
(`src/strategies/vwap_strategy.py`)

Prices are modelled as exact rationals.  `check_volatility_spike` is
embedded in full.  The pandas-ta indicator pipelines behind
`_calculate_indicators` (anchored VWAP, ADX smoothing, RSI, annualized
volatility) are floating-point library code and are abstracted as an
`oracle` producing the five raw indicator values from the buffer; the
length guard, the band formulas, and the control flow around them are
embedded from the source.  The clamped square root in `calculate_vwap`
(`math.sqrt(v) if v > 0 else 0.0`) makes `vwap_std` non-negative; where a
claim relies on that, it appears as an explicit hypothesis on the
oracle. -/

/-- `SignalType` from `src/database/models.py`. -/
inductive SignalType
  | buy
  | sell
  | close
deriving DecidableEq, Repr

/-- The fields of `KlineData` read by the embedded strategy paths (the
full OHLCV record feeds only the abstracted indicator pipelines). -/
structure Kline where
  closePrice : ℚ
  isClosed : Bool
deriving DecidableEq, Repr

/-- The VWAP strategy configuration parameters
(`_validate_config`'s required keys). -/
structure VwapCfg where
  vwapPeriod : Nat
  vwapStdMultiplier : ℚ
  adxPeriod : Nat
  adxThreshold : ℚ
  targetProfitPct : ℚ
  stopLossPct : ℚ
  volatilityThreshold : ℚ
  volatilityHaltMinutes : ℚ
  minConfidence : ℚ
deriving DecidableEq, Repr

/-- `VWAPStrategy._validate_config` succeeds (raises otherwise; key
presence is enforced by typing here). -/
def validateConfig (cfg : VwapCfg) : Bool :=
  decide (10 ≤ cfg.vwapPeriod ∧ 0 ≤ cfg.adxThreshold ∧ cfg.adxThreshold ≤ 50 ∧
    0 < cfg.targetProfitPct ∧ 0 < cfg.stopLossPct)

/-- `VWAPStrategy.get_required_data_length`. -/
def requiredDataLength (cfg : VwapCfg) : Nat :=
  max cfg.vwapPeriod cfg.adxPeriod + 10

/-- The loop of `check_volatility_spike`: largest relative close-to-close
change over consecutive pairs (pairs with non-positive previous close are
skipped; the running maximum starts at 0). -/
def maxConsecChange : List ℚ → ℚ
  | [] => 0
  | [_] => 0
  | a :: b :: rest =>
    max (if 0 < a then |(b - a) / a| else 0) (maxConsecChange (b :: rest))

/-- `check_volatility_spike` from `src/utils/indicators.py`. -/
def checkVolatilitySpike (klines : List Kline) (lookbackSeconds : Nat)
    (threshold : ℚ) : Bool :=
  if klines.length < 2 then false
  else
    let lookbackMinutes := max 1 (lookbackSeconds / 60)
    let recent := takeLast (lookbackMinutes + 1) klines
    if recent.length < 2 then false
    else decide (threshold < maxConsecChange (recent.map Kline.closePrice))

/-- The raw indicator values produced by the abstracted numeric
pipelines. -/
structure IndRaw where
  vwap : ℚ
  vwapStd : ℚ
  adx : ℚ
  rsi : ℚ
  volatility : ℚ
deriving DecidableEq, Repr

/-- The dictionary returned by `VWAPStrategy._calculate_indicators`. -/
structure Indicators where
  vwap : ℚ
  vwapStd : ℚ
  adx : ℚ
  rsi : ℚ
  volatility : ℚ
  upperBand : ℚ
  lowerBand : ℚ
deriving DecidableEq, Repr

/-- `VWAPStrategy._calculate_indicators`: `{}` when the buffer is shorter
than the required length, otherwise the indicator dict with
`upper_band = vwap + std * multiplier` and
`lower_band = vwap - std * multiplier`. -/
def calculateIndicators (oracle : List Kline → IndRaw) (cfg : VwapCfg)
    (klines : List Kline) : Option Indicators :=
  if klines.length < requiredDataLength cfg then none
  else
    let r := oracle klines
    some { vwap := r.vwap, vwapStd := r.vwapStd, adx := r.adx, rsi := r.rsi,
           volatility := r.volatility,
           upperBand := r.vwap + r.vwapStd * cfg.vwapStdMultiplier,
           lowerBand := r.vwap - r.vwapStd * cfg.vwapStdMultiplier }

/-- The `StrategySignal` fields relevant to the claims; `created_at` is
`datetime.now(UTC)` at construction. -/
structure StratSignal where
  signalType : SignalType
  price : ℚ
  confidence : ℚ
  createdAt : ℚ
deriving DecidableEq, Repr

/-- `VWAPStrategy._generate_buy_signal`. -/
def generateBuySignal (cfg : VwapCfg) (now : ℚ) (k : Kline)
    (ind : Indicators) : Option StratSignal :=
  let currentPrice := k.closePrice
  let lowerBand := ind.lowerBand
  if currentPrice < lowerBand ∧ ind.adx < cfg.adxThreshold ∧ 25 < ind.rsi ∧
      1 / 1000 < (lowerBand - currentPrice) / currentPrice then
    let priceDeviation := (lowerBand - currentPrice) / currentPrice
    let adxStrength := max 0 ((cfg.adxThreshold - ind.adx) / cfg.adxThreshold)
    let confidence := min (95 / 100) (1 / 2 + priceDeviation * 50 + adxStrength * (3 / 10))
    if cfg.minConfidence ≤ confidence then
      some { signalType := SignalType.buy, price := currentPrice,
             confidence := confidence, createdAt := now }
    else none
  else none

/-- `VWAPStrategy._generate_sell_signal`. -/
def generateSellSignal (cfg : VwapCfg) (now : ℚ) (k : Kline)
    (ind : Indicators) : Option StratSignal :=
  let currentPrice := k.closePrice
  let upperBand := ind.upperBand
  if upperBand < currentPrice ∧ ind.adx < cfg.adxThreshold ∧ ind.rsi < 75 ∧
      1 / 1000 < (currentPrice - upperBand) / currentPrice then
    let priceDeviation := (currentPrice - upperBand) / currentPrice
    let adxStrength := max 0 ((cfg.adxThreshold - ind.adx) / cfg.adxThreshold)
    let confidence := min (95 / 100) (1 / 2 + priceDeviation * 50 + adxStrength * (3 / 10))
    if cfg.minConfidence ≤ confidence then
      some { signalType := SignalType.sell, price := currentPrice,
             confidence := confidence, createdAt := now }
    else none
  else none

/-- The VWAP-strategy-specific mutable state. -/
structure VwapState where
  lastSignalTime : Option ℚ
  volatilityHaltUntil : Option ℚ
  currentVwap : ℚ
  currentVwapStd : ℚ
  currentAdx : ℚ
deriving DecidableEq, Repr

/-- `VWAPStrategy._is_in_volatility_halt`. -/
def isInVolatilityHalt (now : ℚ) (st : VwapState) : Bool :=
  match st.volatilityHaltUntil with
  | none => false
  | some t => decide (now < t)

/-- `VWAPStrategy._check_volatility_spike`: on a detected spike, set
`volatility_halt_until = now + timedelta(minutes=halt_minutes)` (time in
seconds here). -/
def vwapSpikeCheck (cfg : VwapCfg) (now : ℚ) (klines : List Kline)
    (st : VwapState) : Bool × VwapState :=
  if checkVolatilitySpike klines 5 cfg.volatilityThreshold then
    (true, { st with volatilityHaltUntil := some (now + 60 * cfg.volatilityHaltMinutes) })
  else (false, st)

/-- `if self.last_signal_time: time_since_last < 60 → return []` — the
debounce gate of `VWAPStrategy.process_kline` (the 60-second minimum is a
literal in the source). -/
def debounceBlocked (now : ℚ) (st : VwapState) : Bool :=
  match st.lastSignalTime with
  | none => false
  | some t => decide (now - t < 60)

/-- `VWAPStrategy.process_kline`.  `klines` is `self.klines`, which at
this point already contains `k` (appended by `add_kline`).  All
`datetime.now(UTC)` reads within the call are modelled by the single
instant `now`. -/
def vwapProcessKline (cfg : VwapCfg) (oracle : List Kline → IndRaw)
    (now : ℚ) (klines : List Kline) (st : VwapState) (k : Kline) :
    List StratSignal × VwapState :=
  if k.isClosed = false then ([], st)
  else
    let spike := vwapSpikeCheck cfg now klines st
    if spike.1 then ([], spike.2)
    else if isInVolatilityHalt now spike.2 then ([], spike.2)
    else
      match calculateIndicators oracle cfg klines with
      | none => ([], spike.2)
      | some ind =>
        let st1 := { spike.2 with currentVwap := ind.vwap,
                                  currentVwapStd := ind.vwapStd,
                                  currentAdx := ind.adx }
        if debounceBlocked now st1 then ([], st1)
        else
          let buyRes :=
            match generateBuySignal cfg now k ind with
            | some s => ([s], { st1 with lastSignalTime := some now })
            | none => ([], st1)
          match generateSellSignal cfg now k ind with
          | some s => (buyRes.1 ++ [s], { buyRes.2 with lastSignalTime := some now })
          | none => buyRes

/-- One ingestion call as seen by `process_kline`: the clock value, the
buffer contents (current kline included) and the current kline. -/
structure IngestCall where
  now : ℚ
  klines : List Kline
  kline : Kline

/-- A sequence of `process_kline` calls on one instance, threading the
strategy state and collecting every emitted signal in order. -/
def runProcessCalls (cfg : VwapCfg) (oracle : List Kline → IndRaw) :
    List IngestCall → VwapState → List StratSignal
  | [], _ => []
  | c :: rest, st =>
    let r := vwapProcessKline cfg oracle c.now c.klines st c.kline
    r.1 ++ runProcessCalls cfg oracle rest r.2

/-! ## Clock synchronizer (`src/utils/time_sync.py`)

Millisecond timestamps are integers; Python's floor division `//` is
`Int.fdiv`. -/

/-- The offset stored by `TimeSynchronizer._sync_time` on a successful
probe: `network_delay = (response_time - request_time) // 2`;
`adjusted_server_time = server_time + network_delay`;
`offset = adjusted_server_time - local_time` with
`local_time = response_time`. -/
def computeTimeOffset (requestTime responseTime serverTime : ℤ) : ℤ :=
  let networkDelay := Int.fdiv (responseTime - requestTime) 2
  let adjustedServerTime := serverTime + networkDelay
  let localTime := responseTime
  adjustedServerTime - localTime

/-- `TimeSynchronizer.get_server_time`: local wall-clock fallback while
`_time_offset is None`. -/
def getServerTime (timeOffset : Option ℤ) (localNowMs : ℤ) : ℤ :=
  match timeOffset with
  | none => localNowMs
  | some off => localNowMs + off

/-- `TimeSynchronizer.is_synchronized`. -/
def isSynchronized (timeOffset : Option ℤ) : Bool :=
  timeOffset.isSome

/-! ## Credential lease keepalive (`src/utils/user_data_stream.py`)

`_create_listen_key` records `expires_at = now + 3600`; `_keepalive_loop`
sleeps `30 * 60` seconds and then attempts a renewal; a successful
renewal (extend, or the fallback re-mint) records `expires_at = now +
3600`, a failed one leaves `expires_at` unchanged.  With the cooperative
scheduling model (attempt `k` runs at `t0 + 1800 * k`), the lease expiry
after a prefix of attempt outcomes is: -/

/-- Recorded expiry after processing the given attempt outcomes, `k`
being the index of the next attempt and `e` the expiry recorded so
far. -/
def leaseExpiryAux (t0 : ℚ) : Nat → ℚ → List Bool → ℚ
  | _, e, [] => e
  | k, e, ok :: rest =>
    leaseExpiryAux t0 (k + 1) (if ok then (t0 + 1800 * k) + 3600 else e) rest

/-- Recorded expiry after the attempts in `outcomes` (`true` = renewal
succeeded), the key having been created at `t0`. -/
def leaseExpiry (t0 : ℚ) (outcomes : List Bool) : ℚ :=
  leaseExpiryAux t0 1 (t0 + 3600) outcomes

/-- The wall-clock instant of renewal attempt `n` (attempts are numbered
from 1; the loop sleeps `keepalive_interval = 1800` seconds before each
attempt). -/
def renewalAttemptTime (t0 : ℚ) (n : Nat) : ℚ := t0 + 1800 * n

/-- `expiry − now` at the moment of renewal attempt `n`, given the
outcomes of the previous attempts. -/
def renewalMargin (t0 : ℚ) (outcomes : List Bool) (n : Nat) : ℚ :=
  leaseExpiry t0 (outcomes.take (n - 1)) - renewalAttemptTime t0 n

/-! ## Well-formed subscription keys and concrete fixtures -/

/-- The subscription keys creatable through the subscribe functions, with
the side conditions that make them realistic: the lowercased symbol and
the interval contain no `'@'`, a symbol in a mark-price key does not
itself contain `"kline"` (the dispatch of `_resubscribe_all` tests
`"kline" in stream_id` first), and lowercasing is idempotent across the
upper-case round trip taken during resubscription (true of ASCII
alphanumeric symbols such as `"btcusdt"`). -/
inductive WFKey : PyStr → Prop
  | kline (sym iv : PyStr) (hsym : '@' ∉ sym) (hiv : '@' ∉ iv)
      (hcase : pyLower (pyUpper sym) = sym) :
      WFKey (sym ++ klineSep ++ iv)
  | markPrice (sym : PyStr) (hsym : '@' ∉ sym)
      (hnk : pyContains klineMark sym = false)
      (hcase : pyLower (pyUpper sym) = sym) :
      WFKey (sym ++ markPriceSuffix)
  | userData : WFKey userDataKey

/-- The pre-failure key list with the user-data stream removed: what
`_resubscribe_all` actually restores. -/
def dropUserData (subs : List PyStr) : List PyStr :=
  subs.filter (fun k => decide (k ≠ userDataKey))

/-- The symbol `"BTCUSDT"`. -/
def btcSym : PyStr := ['B', 'T', 'C', 'U', 'S', 'D', 'T']

/-- The symbol `"ETHUSDT"`. -/
def ethSym : PyStr := ['E', 'T', 'H', 'U', 'S', 'D', 'T']

/-- The interval `"1m"`. -/
def iv1m : PyStr := ['1', 'm']

/-- A freshly constructed client state (defaults from
`WebSocketClient.__init__`, `max_backoff` from the default settings),
with the connection in the `"failed"` state that triggers
`_attempt_reconnect` from the health monitor. -/
def wsBase : WSState :=
  { connectionStatus := ConnStatus.failed, reconnectAttempts := 0,
    maxReconnectAttempts := 10, baseBackoff := 1, maxBackoff := 60,
    running := true, subscriptions := [], lastPingTime := none,
    testnet := true }

/-- A failed client that had one kline stream, one mark-price stream and
the user-data stream subscribed. -/
def wsPre : WSState :=
  { wsBase with subscriptions :=
      [klineStreamId btcSym iv1m, markPriceStreamId ethSym, userDataKey] }

/-- A failed client whose only subscription is the user-data stream. -/
def wsUserOnly : WSState :=
  { wsBase with subscriptions := [userDataKey] }

/-- A failed client that has used up its reconnect attempt budget. -/
def wsAtCap : WSState :=
  { wsBase with reconnectAttempts := 10 }

/-- The text of the exception raised by `errProc`. -/
def boomMsg : String := "boom"

/-- A `process_kline` implementation that always raises. -/
def errProc : List Nat → Nat → Unit → Except (String × Unit) (List Nat × Unit) :=
  fun _ _ _ => Except.error (boomMsg, ())

/-- A `process_kline` implementation returning one signal. -/
def okProcA : List Nat → Nat → Unit → Except (String × Unit) (List Nat × Unit) :=
  fun _ _ _ => Except.ok ([7], ())

/-- Another `process_kline` implementation, returning a different
signal. -/
def okProcB : List Nat → Nat → Unit → Except (String × Unit) (List Nat × Unit) :=
  fun _ _ _ => Except.ok ([8], ())

/-- An ACTIVE strategy core whose buffer holds one kline. -/
def coreReady : BaseCore Nat Nat Unit :=
  { state := StrategyState.active, klines := [0], markPrices := [],
    sub := (), signalsGenerated := 0, lastSignalTime := none,
    lastError := none }

/-- The same core, PAUSED. -/
def corePaused : BaseCore Nat Nat Unit :=
  { coreReady with state := StrategyState.paused }

/-- A VWAP configuration with the parameter values exercised by the
repository's tests (`src/test_strategies.py`). -/
def vwapCfgPos : VwapCfg :=
  { vwapPeriod := 10, vwapStdMultiplier := 2, adxPeriod := 14,
    adxThreshold := 20, targetProfitPct := 6 / 10, stopLossPct := 3 / 10,
    volatilityThreshold := 2 / 100, volatilityHaltMinutes := 10,
    minConfidence := 6 / 10 }

/-- The same configuration with a negative `vwap_std_multiplier` — every
check in `_validate_config` still passes. -/
def vwapCfgNeg : VwapCfg :=
  { vwapCfgPos with vwapStdMultiplier := -1 }

/-- An indicator pipeline producing fixed values (`vwap_std = 10 ≥ 0`, as
`calculate_vwap`'s clamped square root guarantees). -/
def constOracle : List Kline → IndRaw :=
  fun _ => { vwap := 100, vwapStd := 10, adx := 10, rsi := 50, volatility := 0 }

/-- A freshly initialized VWAP strategy state. -/
def vwapStFresh : VwapState :=
  { lastSignalTime := none, volatilityHaltUntil := none, currentVwap := 0,
    currentVwapStd := 0, currentAdx := 0 }

/-- A closed candle at price 100. -/
def calmKline : Kline := { closePrice := 100, isClosed := true }

/-- Closed candles with closes `[50000, 51200]` — a 2.4% close-to-close
move. -/
def spikeKlines : List Kline :=
  [{ closePrice := 50000, isClosed := true },
   { closePrice := 51200, isClosed := true }]

/-- A buffer long enough for `vwapCfgPos`/`vwapCfgNeg` (required length
`max 10 14 + 10 = 24`) with no recent price move. -/
def calmBuffer : List Kline := List.replicate 24 calmKline

/-- The second spike candle (close 51200), as the current kline. -/
def spikeK2 : Kline := { closePrice := 51200, isClosed := true }

/-- A VWAP state whose volatility halt is in effect until `t = 600`. -/
def vwapStHalted : VwapState :=
  { vwapStFresh with volatilityHaltUntil := some 600 }

/-- Three ingestion calls at times 0, 30 and 120 seconds. -/
def demoCalls : List IngestCall :=
  [{ now := 0, klines := calmBuffer, kline := calmKline },
   { now := 30, klines := calmBuffer, kline := calmKline },
   { now := 120, klines := calmBuffer, kline := calmKline }]

/-! ## String lemmas for the resubscription analysis

The stream-id keys reachable through the subscribe functions contain
exactly one `'@'` (inside the `"@kline_"` / `"@markPrice"` tags), so
occurrence questions about the tags reduce to the two sides of that
character. -/

theorem dropPre_self_append (pat r : PyStr) : dropPre pat (pat ++ r) = some r := by
  induction pat with
  | nil => rfl
  | cons a as ih => simp [dropPre, ih]

theorem splitLoc_eq_none {ps s : PyStr} (h : '@' ∉ s) :
    splitLoc ('@' :: ps) s = none := by
  induction s with
  | nil => rfl
  | cons c cs ih =>
    have hc : ('@' : Char) ≠ c := by
      intro hh
      exact h (hh ▸ List.mem_cons_self c cs)
    rw [splitLoc]
    have hd : dropPre ('@' :: ps) (c :: cs) = none := by
      simp [dropPre, hc]
    rw [hd, ih (fun hm => h (List.mem_cons_of_mem c hm))]

theorem pySplitAux_of_none {sep s : PyStr} (h : splitLoc sep s = none) :
    ∀ fuel, pySplitAux sep fuel s = [s] := by
  intro fuel
  cases fuel with
  | zero => rfl
  | succ f => rw [pySplitAux, h]

theorem dropPre_across {pat ys : PyStr} (xs : PyStr) (h : '@' ∉ pat) :
    (dropPre pat (xs ++ '@' :: ys)).isSome = (dropPre pat xs).isSome := by
  induction pat generalizing xs with
  | nil => simp [dropPre]
  | cons a as ih =>
    have ha : a ≠ '@' := fun hh => h (hh ▸ List.mem_cons_self a as)
    have htl : ('@' : Char) ∉ as := fun hm => h (List.mem_cons_of_mem a hm)
    cases xs with
    | nil => simp [dropPre, ha]
    | cons b bs =>
      by_cases hab : a = b
      · simpa [dropPre, hab] using ih bs htl
      · simp [dropPre, hab]

theorem pyContains_across {pat xs ys : PyStr} (hp : '@' ∉ pat) (hne : pat ≠ []) :
    pyContains pat (xs ++ '@' :: ys) = (pyContains pat xs || pyContains pat ys) := by
  induction xs with
  | nil =>
    cases pat with
    | nil => exact absurd rfl hne
    | cons p pr =>
      have hpne : p ≠ '@' := fun hh => hp (hh ▸ List.mem_cons_self p pr)
      simp [pyContains, dropPre, hpne]
  | cons c cs ih =>
    have h1 : pyContains pat ((c :: cs) ++ '@' :: ys) =
        ((dropPre pat ((c :: cs) ++ '@' :: ys)).isSome || pyContains pat (cs ++ '@' :: ys)) := by
      rw [List.cons_append, pyContains]
    rw [h1, dropPre_across (c :: cs) hp, ih, pyContains, Bool.or_assoc]

theorem pyContains_self_append (pat r : PyStr) (h : pat ≠ []) :
    pyContains pat (pat ++ r) = true := by
  cases pat with
  | nil => exact absurd rfl h
  | cons p pr =>
    have hd : dropPre (p :: pr) ((p :: pr) ++ r) = some r := dropPre_self_append _ _
    rw [List.cons_append, pyContains, ← List.cons_append, hd]
    rfl

theorem splitLoc_boundary (ps sym rest : PyStr) (hsym : '@' ∉ sym) :
    splitLoc ('@' :: ps) (sym ++ ('@' :: ps) ++ rest) = some (sym, rest) := by
  induction sym with
  | nil =>
    have hd : dropPre ('@' :: ps) (('@' :: ps) ++ rest) = some rest :=
      dropPre_self_append _ _
    rw [List.nil_append, List.cons_append, splitLoc, ← List.cons_append, hd]
  | cons c cs ih =>
    have hc : ('@' : Char) ≠ c := by
      intro hh
      exact hsym (hh ▸ List.mem_cons_self c cs)
    have htl : ('@' : Char) ∉ cs := fun hm => hsym (List.mem_cons_of_mem c hm)
    have hd : dropPre ('@' :: ps) (c :: (cs ++ ('@' :: ps) ++ rest)) = none := by
      simp [dropPre, hc]
    calc splitLoc ('@' :: ps) ((c :: cs) ++ ('@' :: ps) ++ rest)
        = splitLoc ('@' :: ps) (c :: (cs ++ ('@' :: ps) ++ rest)) := by
          simp [List.cons_append]
      _ = some (c :: cs, rest) := by
          rw [splitLoc, hd, ih htl]
      _ = some ((c :: cs), rest) := rfl

theorem pySplit_boundary (ps sym rest : PyStr) (hsym : '@' ∉ sym)
    (hrest : '@' ∉ rest) :
    pySplit ('@' :: ps) (sym ++ ('@' :: ps) ++ rest) = [sym, rest] := by
  have hloc := splitLoc_boundary ps sym rest hsym
  have hlen : (sym ++ ('@' :: ps) ++ rest).length =
      (sym.length + (ps.length + rest.length)) + 1 := by
    simp [List.length_append]
    omega
  rw [pySplit, if_neg (by simp), hlen, pySplitAux, hloc]
  show sym :: pySplitAux ('@' :: ps) (sym.length + (ps.length + rest.length)) rest = [sym, rest]
  rw [pySplitAux_of_none (splitLoc_eq_none hrest)]

/-! ## C1 development: well-formed subscription keys -/

theorem resubscribeStep_wf {k : PyStr} (acc : List PyStr) (h : WFKey k) :
    resubscribeStep acc k = if k = userDataKey then acc else dictInsertKey acc k := by
  cases h with
  | kline sym iv hsym hiv hcase =>
    have hshape : sym ++ klineSep ++ iv = sym ++ ('@' :: (klineMark ++ ['_'])) ++ iv := rfl
    have hct : pyContains klineMark (sym ++ klineSep ++ iv) = true := by
      have h2 : sym ++ klineSep ++ iv = sym ++ '@' :: (klineMark ++ ('_' :: iv)) := by
        simp [klineSep, klineMark, List.append_assoc]
      rw [h2, pyContains_across (by decide) (by decide),
        pyContains_self_append klineMark ('_' :: iv) (by decide)]
      exact Bool.or_true _
    have hsp : pySplit klineSep (sym ++ klineSep ++ iv) = [sym, iv] := by
      rw [hshape]
      exact pySplit_boundary (klineMark ++ ['_']) sym iv hsym hiv
    have hne : sym ++ klineSep ++ iv ≠ userDataKey := by
      intro hh
      rw [hh] at hct
      exact absurd hct (by decide)
    rw [resubscribeStep, if_pos hct, hsp, if_neg hne]
    simp only [List.headD, List.getD]
    rw [subscribeKline, klineStreamId, hcase]
    rfl
  | markPrice sym hsym hnk hcase =>
    have hshape : sym ++ markPriceSuffix = sym ++ ('@' :: ([] : PyStr)) ++ markPriceMark := by
      simp [markPriceSuffix, markPriceMark]
    have hcf : pyContains klineMark (sym ++ markPriceSuffix) = false := by
      have : sym ++ markPriceSuffix = sym ++ '@' :: markPriceMark := rfl
      rw [this, pyContains_across (by decide) (by decide), hnk]
      decide
    have hct : pyContains markPriceMark (sym ++ markPriceSuffix) = true := by
      have h2 : sym ++ markPriceSuffix = sym ++ '@' :: markPriceMark := rfl
      rw [h2, pyContains_across (by decide) (by decide)]
      have hself : pyContains markPriceMark (markPriceMark ++ []) = true :=
        pyContains_self_append markPriceMark [] (by decide)
      rw [List.append_nil] at hself
      rw [hself]
      exact Bool.or_true _
    have hsp : pySplit atSep (sym ++ markPriceSuffix) = [sym, markPriceMark] := by
      rw [hshape]
      exact pySplit_boundary [] sym markPriceMark hsym (by decide)
    have hne : sym ++ markPriceSuffix ≠ userDataKey := by
      intro hh
      rw [hh] at hct
      exact absurd hct (by decide)
    rw [resubscribeStep, if_neg (by rw [hcf]; exact Bool.false_ne_true),
      if_pos hct, hsp, if_neg hne]
    simp only [List.headD]
    rw [subscribeMarkPrice, markPriceStreamId, hcase]
  | userData =>
    rw [resubscribeStep]
    rw [if_neg (by decide), if_neg (by decide), if_pos rfl, if_pos rfl]

theorem foldl_resubscribe : ∀ (subs acc : List PyStr),
    (∀ k ∈ subs, WFKey k) → subs.Nodup → (∀ k ∈ subs, k ∉ acc) →
    List.foldl resubscribeStep acc subs = acc ++ dropUserData subs := by
  intro subs
  induction subs with
  | nil => intro acc _ _ _; simp [dropUserData]
  | cons k rest ih =>
    intro acc hwf hnd hdisj
    have hndk := (List.nodup_cons.mp hnd).1
    have hndr := (List.nodup_cons.mp hnd).2
    rw [List.foldl_cons, resubscribeStep_wf acc (hwf k (List.mem_cons_self k rest))]
    by_cases hk : k = userDataKey
    · rw [if_pos hk]
      rw [ih acc (fun x hx => hwf x (List.mem_cons_of_mem k hx)) hndr
        (fun x hx => hdisj x (List.mem_cons_of_mem k hx))]
      have : dropUserData (k :: rest) = dropUserData rest := by
        simp [dropUserData, List.filter_cons, hk]
      rw [this]
    · rw [if_neg hk]
      have hkacc : k ∉ acc := hdisj k (List.mem_cons_self k rest)
      rw [dictInsertKey, if_neg hkacc]
      rw [ih (acc ++ [k]) (fun x hx => hwf x (List.mem_cons_of_mem k hx)) hndr ?_]
      · have : dropUserData (k :: rest) = k :: dropUserData rest := by
          simp [dropUserData, List.filter_cons, hk]
        rw [this, List.append_assoc]
        rfl
      · intro x hx hmem
        rcases List.mem_append.mp hmem with hxa | hxk
        · exact hdisj x (List.mem_cons_of_mem k hx) hxa
        · rw [List.mem_singleton.mp hxk] at hx
          exact hndk hx

theorem resubscribeAll_eq_dropUserData {subs : List PyStr}
    (hwf : ∀ k ∈ subs, WFKey k) (hnd : subs.Nodup) :
    resubscribeAll subs = dropUserData subs := by
  rw [resubscribeAll, foldl_resubscribe subs [] hwf hnd (by simp)]
  rfl

/-! ## Base-strategy helper lemmas -/

theorem addKline_klines {K M S Sg : Type} (required : Nat)
    (proc : List K → K → S → Except (String × S) (List Sg × S))
    (t : ℚ) (c : BaseCore K M S) (k : K) :
    (addKline required proc t c k).2.klines = updatedKlines required c.klines k := by
  simp only [addKline]
  split
  · rfl
  · split
    · rfl
    · split
      · rfl
      · rfl

theorem updatedKlines_length_le {K : Type} (required : Nat) (klines : List K) (k : K) :
    (updatedKlines required klines k).length ≤ max 200 (required * 2) := by
  simp only [updatedKlines]
  split
  · simp only [takeLast, List.length_drop]
    omega
  · omega

/-! ## VWAP strategy helper lemmas -/

theorem generateBuySignal_some {cfg : VwapCfg} {t : ℚ} {k : Kline}
    {ind : Indicators} {s : StratSignal}
    (h : generateBuySignal cfg t k ind = some s) :
    k.closePrice < ind.lowerBand ∧ s.createdAt = t ∧
    s.signalType = SignalType.buy := by
  simp only [generateBuySignal] at h
  split_ifs at h with h1 h2
  all_goals
    first
      | exact Option.noConfusion h
      | (injection h with hh
         subst hh
         exact ⟨h1.1, rfl, rfl⟩)

theorem generateSellSignal_some {cfg : VwapCfg} {t : ℚ} {k : Kline}
    {ind : Indicators} {s : StratSignal}
    (h : generateSellSignal cfg t k ind = some s) :
    ind.upperBand < k.closePrice ∧ s.createdAt = t ∧
    s.signalType = SignalType.sell := by
  simp only [generateSellSignal] at h
  split_ifs at h with h1 h2
  all_goals
    first
      | exact Option.noConfusion h
      | (injection h with hh
         subst hh
         exact ⟨h1.1, rfl, rfl⟩)

theorem calculateIndicators_band {oracle : List Kline → IndRaw} {cfg : VwapCfg}
    {klines : List Kline} {ind : Indicators}
    (h : calculateIndicators oracle cfg klines = some ind)
    (hm : 0 ≤ cfg.vwapStdMultiplier) (hstd : 0 ≤ (oracle klines).vwapStd) :
    ind.lowerBand ≤ ind.upperBand := by
  simp only [calculateIndicators] at h
  split_ifs at h with hl
  all_goals
    first
      | exact Option.noConfusion h
      | (injection h with hh
         subst hh
         show (oracle klines).vwap - (oracle klines).vwapStd * cfg.vwapStdMultiplier ≤
           (oracle klines).vwap + (oracle klines).vwapStd * cfg.vwapStdMultiplier
         have hnn : 0 ≤ (oracle klines).vwapStd * cfg.vwapStdMultiplier :=
           mul_nonneg hstd hm
         linarith)

/-- Shape of any single `process_kline` call under a non-negative band
multiplier and the non-negative `vwap_std` the code guarantees: either no
signal is emitted and `last_signal_time` is untouched, or exactly one
signal is emitted, stamped with the call instant, `last_signal_time` is
set to that instant, and the call instant is at least 60 s after any
previously recorded `last_signal_time` (the debounce gate). -/
theorem vwapProcessKline_spec (cfg : VwapCfg) (oracle : List Kline → IndRaw)
    (t : ℚ) (klines : List Kline) (st : VwapState) (k : Kline)
    (hm : 0 ≤ cfg.vwapStdMultiplier) (hstd : 0 ≤ (oracle klines).vwapStd) :
    ((vwapProcessKline cfg oracle t klines st k).1 = [] ∧
     (vwapProcessKline cfg oracle t klines st k).2.lastSignalTime = st.lastSignalTime) ∨
    (∃ s, (vwapProcessKline cfg oracle t klines st k).1 = [s] ∧ s.createdAt = t ∧
      (vwapProcessKline cfg oracle t klines st k).2.lastSignalTime = some t ∧
      (∀ u, st.lastSignalTime = some u → u + 60 ≤ t)) := by
  by_cases hcl : k.isClosed = false
  · left
    constructor <;> simp [vwapProcessKline, hcl]
  by_cases hsp : checkVolatilitySpike klines 5 cfg.volatilityThreshold = true
  · left
    constructor <;> simp [vwapProcessKline, vwapSpikeCheck, hcl, hsp]
  by_cases hha : isInVolatilityHalt t st = true
  · left
    constructor <;> simp [vwapProcessKline, vwapSpikeCheck, hcl, hsp, hha]
  cases hind : calculateIndicators oracle cfg klines with
  | none =>
    left
    constructor <;> simp [vwapProcessKline, vwapSpikeCheck, hcl, hsp, hha, hind]
  | some ind =>
    cases hdbv : debounceBlocked t st with
    | true =>
      have hdb1 : debounceBlocked t
          { st with currentVwap := ind.vwap, currentVwapStd := ind.vwapStd,
                    currentAdx := ind.adx } = true := hdbv
      left
      constructor <;> simp [vwapProcessKline, vwapSpikeCheck, hcl, hsp, hha, hind, hdb1]
    | false =>
      have hdb1 : debounceBlocked t
          { st with currentVwap := ind.vwap, currentVwapStd := ind.vwapStd,
                    currentAdx := ind.adx } = false := hdbv
      have hpass : ∀ v, st.lastSignalTime = some v → v + 60 ≤ t := by
        intro v hv
        simp only [debounceBlocked, hv, decide_eq_false_iff_not, not_lt] at hdbv
        linarith
      cases hbuy : generateBuySignal cfg t k ind with
      | some sb =>
        cases hsell : generateSellSignal cfg t k ind with
        | some ss =>
          exfalso
          have hb := (generateBuySignal_some hbuy).1
          have hs := (generateSellSignal_some hsell).1
          have hband := calculateIndicators_band hind hm hstd
          linarith
        | none =>
          right
          refine ⟨sb, ?_, (generateBuySignal_some hbuy).2.1, ?_, hpass⟩
          · simp [vwapProcessKline, vwapSpikeCheck, hcl, hsp, hha, hind, hdb1, hbuy, hsell]
          · simp [vwapProcessKline, vwapSpikeCheck, hcl, hsp, hha, hind, hdb1, hbuy, hsell]
      | none =>
        cases hsell : generateSellSignal cfg t k ind with
        | some ss =>
          right
          refine ⟨ss, ?_, (generateSellSignal_some hsell).2.1, ?_, hpass⟩
          · simp [vwapProcessKline, vwapSpikeCheck, hcl, hsp, hha, hind, hdb1, hbuy, hsell]
          · simp [vwapProcessKline, vwapSpikeCheck, hcl, hsp, hha, hind, hdb1, hbuy, hsell]
        | none =>
          left
          constructor <;>
            simp [vwapProcessKline, vwapSpikeCheck, hcl, hsp, hha, hind, hdb1, hbuy, hsell]

/-- Invariant for a sequence of `process_kline` calls: the collected
signals are pairwise ≥ 60 s apart, and every collected signal is stamped
at least 60 s after whatever `last_signal_time` the state carried when
the sequence started. -/
theorem runProcessCalls_gap (cfg : VwapCfg) (oracle : List Kline → IndRaw)
    (hm : 0 ≤ cfg.vwapStdMultiplier) (hstd : ∀ ks, 0 ≤ (oracle ks).vwapStd) :
    ∀ (calls : List IngestCall) (st : VwapState),
      List.Pairwise (fun a b => a.createdAt + 60 ≤ b.createdAt)
        (runProcessCalls cfg oracle calls st) ∧
      (∀ u, st.lastSignalTime = some u →
        ∀ s ∈ runProcessCalls cfg oracle calls st, u + 60 ≤ s.createdAt) := by
  intro calls
  induction calls with
  | nil =>
    intro st
    refine ⟨List.Pairwise.nil, ?_⟩
    intro u _ s hs
    simp [runProcessCalls] at hs
  | cons c rest ih =>
    intro st
    rcases vwapProcessKline_spec cfg oracle c.now c.klines st c.kline hm (hstd c.klines) with
      ⟨he, hlt⟩ | ⟨s, hs1, hsc, hlt, hp⟩
    · constructor
      · simp only [runProcessCalls, he, List.nil_append]
        exact (ih _).1
      · intro u hu q hq
        simp only [runProcessCalls, he, List.nil_append] at hq
        exact (ih _).2 u (hlt.trans hu) q hq
    · have htail := ih (vwapProcessKline cfg oracle c.now c.klines st c.kline).2
      have hbound := htail.2 c.now hlt
      constructor
      · simp only [runProcessCalls, hs1, List.singleton_append]
        rw [List.pairwise_cons]
        refine ⟨?_, htail.1⟩
        intro b hb
        rw [hsc]
        exact hbound b hb
      · intro u hu q hq
        simp only [runProcessCalls, hs1, List.singleton_append, List.mem_cons] at hq
        rcases hq with rfl | hq
        · rw [hsc]
          exact hp u hu
        · have h1 := hbound q hq
          have h2 := hp u hu
          linarith

/-- Recorded lease expiry after `m + 1` consecutive successful renewal
attempts starting at attempt index `k`. -/
theorem leaseExpiryAux_all_true (t0 : ℚ) :
    ∀ (m k : Nat) (e : ℚ),
      leaseExpiryAux t0 k e (List.replicate (m + 1) true) =
        t0 + 1800 * ((k : ℚ) + (m : ℚ)) + 3600 := by
  intro m
  induction m with
  | zero =>
    intro k e
    simp [leaseExpiryAux]
  | succ p ih =>
    intro k e
    rw [List.replicate_succ, leaseExpiryAux, ih (k + 1)]
    push_cast
    ring

/-! ## Claim theorems -/

/-- C1 (counterexample): the claimed set equality fails when the
pre-failure subscription set contains the user-data stream —
`_resubscribe_all` only logs a warning for it, so after a successful
reconnect below the attempt cap the stream id `"user_data"` is no longer
subscribed. -/
theorem c1_counterexample_user_data_lost :
    userDataKey ∈ wsUserOnly.subscriptions ∧
    userDataKey ∉ (attemptReconnect wsUserOnly true 0).subscriptions := by
  decide

/-- C1 (amended): after every successful reconnect performed by
`_attempt_reconnect` below the attempt cap, the resubscribed stream-id
set equals the pre-failure set **minus the user-data stream** (in
particular kline and mark-price subscriptions are all restored, with no
extras); the user-data stream is dropped and requires manual
resubscription. -/
theorem c1_resubscribe_restores_all_but_user_data (s : WSState) (t : ℚ)
    (hcap : s.reconnectAttempts < s.maxReconnectAttempts)
    (hwf : ∀ k ∈ s.subscriptions, WFKey k) (hnd : s.subscriptions.Nodup) :
    (attemptReconnect s true t).subscriptions = dropUserData s.subscriptions := by
  rw [attemptReconnect, if_neg (by omega)]
  show resubscribeAll s.subscriptions = dropUserData s.subscriptions
  exact resubscribeAll_eq_dropUserData hwf hnd

/-- C1 (witness): a client with a kline, a mark-price and the user-data
subscription restores exactly the first two. -/
theorem c1_resubscribe_restores_all_but_user_data_witness :
    wsPre.reconnectAttempts < wsPre.maxReconnectAttempts ∧
    (attemptReconnect wsPre true 0).subscriptions = dropUserData wsPre.subscriptions := by
  refine ⟨by decide, c1_resubscribe_restores_all_but_user_data wsPre 0 (by decide) ?_ (by decide)⟩
  intro k hk
  have hm : k = klineStreamId btcSym iv1m ∨ k = markPriceStreamId ethSym ∨
      k = userDataKey := by
    simpa [wsPre, wsBase] using hk
  rcases hm with hm | hm | hm
  · exact hm ▸ WFKey.kline (pyLower btcSym) iv1m (by decide) (by decide) (by decide)
  · exact hm ▸ WFKey.markPrice (pyLower ethSym) (by decide) (by decide) (by decide)
  · exact hm ▸ WFKey.userData

/-- C2: the backoff wait computed by `_attempt_reconnect` for attempt
`n ≥ 1` equals `min(base * 2^(n-1), maxBackoff)`, is monotonically
non-decreasing in the attempt number, never exceeds the configured
maximum, and equals 16 for base 1, cap 60, attempt 5. -/
theorem c2_backoff_formula (base maxB n : Nat) (h : 1 ≤ n) :
    backoffWait base maxB n = min (base * 2 ^ (n - 1)) maxB ∧
    backoffWait base maxB n ≤ backoffWait base maxB (n + 1) ∧
    backoffWait base maxB n ≤ maxB ∧
    backoffWait 1 60 5 = 16 := by
  refine ⟨rfl, ?_, Nat.min_le_right _ _, by decide⟩
  have hp : base * 2 ^ (n - 1) ≤ base * 2 ^ (n + 1 - 1) :=
    Nat.mul_le_mul_left base (Nat.pow_le_pow_right (by omega) (by omega))
  exact min_le_min hp (le_refl maxB)

/-- C2 (witness): the scenario base 1 s, cap 60 s, attempt 5. -/
theorem c2_backoff_formula_witness :
    1 ≤ 5 ∧ (backoffWait 1 60 5 = min (1 * 2 ^ (5 - 1)) 60 ∧
      backoffWait 1 60 5 ≤ backoffWait 1 60 6 ∧
      backoffWait 1 60 5 ≤ 60 ∧ backoffWait 1 60 5 = 16) :=
  ⟨by decide, c2_backoff_formula 1 60 5 (by decide)⟩

/-- C6: reaching the reconnect-attempt cap is fatal: `_attempt_reconnect`
only clears `_running` (stopping the health-monitor and processing
loops — no further attempt is ever made, as the fixed-point conjunct
shows), the attempt counter stops changing, and the condition remains
visible to callers through `get_connection_status`, which keeps
reporting the `"failed"` status together with the exhausted attempt
count. -/
theorem c6_reconnect_cap_is_fatal (s : WSState) (ok : Bool) (t : ℚ)
    (hcap : s.maxReconnectAttempts ≤ s.reconnectAttempts) :
    attemptReconnect s ok t = { s with running := false } ∧
    (attemptReconnect s ok t).running = false ∧
    attemptReconnect { s with running := false } ok t = { s with running := false } ∧
    getConnectionStatus (attemptReconnect s ok t) =
      { status := s.connectionStatus, lastPing := s.lastPingTime,
        reconnectAttempts := s.reconnectAttempts,
        activeSubscriptions := s.subscriptions.length, testnet := s.testnet } ∧
    (s.connectionStatus = ConnStatus.failed →
      (getConnectionStatus (attemptReconnect s ok t)).status = ConnStatus.failed) := by
  have h1 : attemptReconnect s ok t = { s with running := false } := by
    rw [attemptReconnect, if_pos hcap]
  have h3 : attemptReconnect { s with running := false } ok t =
      { s with running := false } := by
    rw [attemptReconnect, if_pos hcap]
  exact ⟨h1, by rw [h1], h3, by rw [h1]; rfl, fun hf => by rw [h1]; exact hf⟩

/-- C6 (witness): a client at the attempt cap stops and keeps reporting
`"failed"`. -/
theorem c6_reconnect_cap_is_fatal_witness :
    wsAtCap.maxReconnectAttempts ≤ wsAtCap.reconnectAttempts ∧
    (attemptReconnect wsAtCap true 0).running = false ∧
    (getConnectionStatus (attemptReconnect wsAtCap true 0)).status = ConnStatus.failed :=
  ⟨by decide, (c6_reconnect_cap_is_fatal wsAtCap true 0 (by decide)).2.1,
    (c6_reconnect_cap_is_fatal wsAtCap true 0 (by decide)).2.2.2.2 rfl⟩

/-- C3: when the subclass `process_kline` raises during an ingestion
call that reaches it, `add_kline` catches the exception at the instance
boundary: the call still returns (with an empty signal list), the state
becomes ERROR and `last_error` records the exception; the same holds for
`add_mark_price`; and a subsequent explicit `start()` on any ERROR-state
instance returns `True` and moves it back to ACTIVE. -/
theorem c3_ingest_exception_contained {K M S Sg : Type} (required : Nat)
    (proc : List K → K → S → Except (String × S) (List Sg × S))
    (procM : List M → M → S → Except (String × S) (List Sg × S))
    (t : ℚ) (c : BaseCore K M S) (k : K) (mp : M) (e e2 : String) (s2 s3 : S)
    (hactive : c.state = StrategyState.active)
    (hready : required ≤ (updatedKlines required c.klines k).length)
    (herr : proc (updatedKlines required c.klines k) k c.sub = Except.error (e, s2))
    (hreadyM : required ≤ c.klines.length)
    (herrM : procM (updatedMarkPrices c.markPrices mp) mp c.sub = Except.error (e2, s3)) :
    addKline required proc t c k =
      ([], { c with klines := updatedKlines required c.klines k, sub := s2,
                    state := StrategyState.error, lastError := some e }) ∧
    addMarkPrice required procM t c mp =
      ([], { c with markPrices := updatedMarkPrices c.markPrices mp, sub := s3,
                    state := StrategyState.error, lastError := some e2 }) ∧
    (∀ (d : BaseCore K M S), d.state = StrategyState.error →
      startStrategy d = (true, { d with state := StrategyState.active })) := by
  refine ⟨?_, ?_, ?_⟩
  · have hr : isReady required { c with klines := updatedKlines required c.klines k } = true := by
      rw [isReady]
      exact decide_eq_true ⟨hactive, hready⟩
    simp only [addKline, hr, not_true_eq_false, if_false, herr]
  · have hr : isReady required { c with markPrices := updatedMarkPrices c.markPrices mp } = true := by
      rw [isReady]
      exact decide_eq_true ⟨hactive, hreadyM⟩
    simp only [addMarkPrice, hr, not_true_eq_false, if_false, herrM]
  · intro d hd
    rw [startStrategy, if_neg (by rw [hd]; exact fun hh => StrategyState.noConfusion hh)]

/-- C3 (witness): a raising `process_kline` on a ready ACTIVE instance
yields `[]` plus the ERROR state, and `start()` recovers it. -/
theorem c3_ingest_exception_contained_witness :
    coreReady.state = StrategyState.active ∧
    (addKline 1 errProc 0 coreReady 5 =
      ([], { coreReady with klines := updatedKlines 1 coreReady.klines 5, sub := (),
                            state := StrategyState.error, lastError := some boomMsg }) ∧
     addMarkPrice 1 errProc 0 coreReady 9 =
      ([], { coreReady with markPrices := updatedMarkPrices coreReady.markPrices 9, sub := (),
                            state := StrategyState.error, lastError := some boomMsg }) ∧
    (∀ (d : BaseCore Nat Nat Unit), d.state = StrategyState.error →
      startStrategy d = (true, { d with state := StrategyState.active }))) :=
  ⟨rfl, c3_ingest_exception_contained 1 errProc errProc 0 coreReady 5 9 boomMsg boomMsg () ()
    rfl (by decide) rfl (by decide) rfl⟩

/-- C7: after every `add_kline` call the kline buffer never exceeds
`max(200, 2 × required)` elements; and whenever the instance is not
ACTIVE or the (just-updated) buffer is still shorter than the declared
minimum lookback, the call returns an empty list and its result does not
depend on the subclass `process_kline` at all — no indicator computation
is invoked. -/
theorem c7_buffer_bound_and_ready_gate {K M S Sg : Type} (required : Nat)
    (proc proc2 : List K → K → S → Except (String × S) (List Sg × S))
    (t : ℚ) (c : BaseCore K M S) (k : K) :
    (addKline required proc t c k).2.klines.length ≤ max 200 (required * 2) ∧
    (¬ (c.state = StrategyState.active ∧
        required ≤ (updatedKlines required c.klines k).length) →
      addKline required proc t c k =
        ([], { c with klines := updatedKlines required c.klines k }) ∧
      addKline required proc t c k = addKline required proc2 t c k) := by
  constructor
  · rw [addKline_klines]
    exact updatedKlines_length_le required c.klines k
  · intro hnr
    have hr : isReady required { c with klines := updatedKlines required c.klines k } = false := by
      rw [isReady]
      exact decide_eq_false hnr
    have h1 : addKline required proc t c k =
        ([], { c with klines := updatedKlines required c.klines k }) := by
      simp only [addKline, hr, Bool.false_eq_true, not_false_eq_true, if_true]
    have h2 : addKline required proc2 t c k =
        ([], { c with klines := updatedKlines required c.klines k }) := by
      simp only [addKline, hr, Bool.false_eq_true, not_false_eq_true, if_true]
    exact ⟨h1, h1.trans h2.symm⟩

/-- C7 (witness): a PAUSED instance ingests a kline — the buffer stays
bounded, the result is empty and identical for two different
`process_kline` implementations. -/
theorem c7_buffer_bound_and_ready_gate_witness :
    ((addKline 1 okProcA 0 corePaused 5).2.klines.length ≤ max 200 (1 * 2)) ∧
    (addKline 1 okProcA 0 corePaused 5 =
      ([], { corePaused with klines := updatedKlines 1 corePaused.klines 5 }) ∧
     addKline 1 okProcA 0 corePaused 5 = addKline 1 okProcB 0 corePaused 5) :=
  ⟨(c7_buffer_bound_and_ready_gate 1 okProcA okProcB 0 corePaused 5).1,
   (c7_buffer_bound_and_ready_gate 1 okProcA okProcB 0 corePaused 5).2 (by decide)⟩

/-- C8: a successful time-sync probe stores
`serverTime + (responseTime − requestTime)/2 − localReceiveTime` (Python
floor division, the local receive time being the response time), and
before the first successful sync `get_server_time` returns the local
wall-clock time while `is_synchronized()` is `false`. -/
theorem c8_time_sync_offset_and_fallback :
    (∀ rq rs sv : ℤ, computeTimeOffset rq rs sv = sv + (rs - rq).fdiv 2 - rs) ∧
    (∀ t : ℤ, getServerTime none t = t) ∧ isSynchronized none = false :=
  ⟨fun _ _ _ => rfl, fun _ => rfl, rfl⟩

/-- C5: the volatility gate of `VWAPStrategy.process_kline` — for a
closed candle, (1) a detected spike (largest relative close-to-close
move over the short lookback window strictly above the configured
threshold) makes the call return `[]` and start a halt of
`volatility_halt_minutes` from the call instant, for every indicator
pipeline (the check precedes any indicator computation); (2) while a
halt is in effect the call returns `[]` for every indicator pipeline,
even if entry conditions are otherwise met; (3) closes `[50000, 51200]`
with threshold `0.02` trigger the spike check. -/
theorem c5_volatility_halt_gate (cfg : VwapCfg) (oracle : List Kline → IndRaw)
    (t : ℚ) (klines : List Kline) (st : VwapState) (k : Kline)
    (hcl : k.isClosed = true) :
    (checkVolatilitySpike klines 5 cfg.volatilityThreshold = true →
      vwapProcessKline cfg oracle t klines st k =
        ([], { st with
          volatilityHaltUntil := some (t + 60 * cfg.volatilityHaltMinutes) })) ∧
    (isInVolatilityHalt t st = true →
      (vwapProcessKline cfg oracle t klines st k).1 = []) ∧
    checkVolatilitySpike spikeKlines 5 (2 / 100) = true := by
  have hcl2 : ¬ (k.isClosed = false) := by simp [hcl]
  refine ⟨?_, ?_, by with_unfolding_all rfl⟩
  · intro hsp
    simp [vwapProcessKline, vwapSpikeCheck, hcl2, hsp]
  · intro hha
    by_cases hsp : checkVolatilitySpike klines 5 cfg.volatilityThreshold = true
    · simp [vwapProcessKline, vwapSpikeCheck, hcl2, hsp]
    · simp [vwapProcessKline, vwapSpikeCheck, hcl2, hsp, hha]

/-- C5 (witness): closes `[50000, 51200]` under the test configuration
(threshold 0.02) start a 10-minute halt, and a call during a halt emits
nothing. -/
theorem c5_volatility_halt_gate_witness :
    spikeK2.isClosed = true ∧
    vwapProcessKline vwapCfgPos constOracle 0 spikeKlines vwapStFresh spikeK2 =
      ([], { vwapStFresh with
        volatilityHaltUntil := some (0 + 60 * vwapCfgPos.volatilityHaltMinutes) }) ∧
    (vwapProcessKline vwapCfgPos constOracle 0 spikeKlines vwapStHalted spikeK2).1 = [] :=
  ⟨rfl,
   (c5_volatility_halt_gate vwapCfgPos constOracle 0 spikeKlines vwapStFresh spikeK2 rfl).1
     (by with_unfolding_all rfl),
   (c5_volatility_halt_gate vwapCfgPos constOracle 0 spikeKlines vwapStHalted spikeK2 rfl).2.1
     (by with_unfolding_all rfl)⟩

/-- C10 (counterexample): with a negative `vwap_std_multiplier` — which
`_validate_config` accepts — the lower band lies strictly above the
upper band, and a single `process_kline` call returns both a BUY and a
SELL signal. -/
theorem c10_counterexample_negative_multiplier :
    validateConfig vwapCfgNeg = true ∧
    ((vwapProcessKline vwapCfgNeg constOracle 0 calmBuffer vwapStFresh calmKline).1.map
      StratSignal.signalType) = [SignalType.buy, SignalType.sell] :=
  ⟨by with_unfolding_all rfl, by with_unfolding_all rfl⟩

/-- C10 (amended): provided the configured `vwap_std_multiplier` is
non-negative (true of every configuration shipped with the repository)
and given the non-negative `vwap_std` that `calculate_vwap`'s clamped
square root produces, a single `process_kline` call never returns both a
BUY and a SELL signal, and the returned list has at most one element. -/
theorem c10_at_most_one_signal_when_mult_nonneg (cfg : VwapCfg)
    (oracle : List Kline → IndRaw) (t : ℚ) (klines : List Kline)
    (st : VwapState) (k : Kline)
    (hm : 0 ≤ cfg.vwapStdMultiplier) (hstd : 0 ≤ (oracle klines).vwapStd) :
    (vwapProcessKline cfg oracle t klines st k).1.length ≤ 1 ∧
    ¬ ((∃ s ∈ (vwapProcessKline cfg oracle t klines st k).1,
          s.signalType = SignalType.buy) ∧
       (∃ s ∈ (vwapProcessKline cfg oracle t klines st k).1,
          s.signalType = SignalType.sell)) := by
  rcases vwapProcessKline_spec cfg oracle t klines st k hm hstd with
    ⟨h1, _⟩ | ⟨s, h1, _, _, _⟩
  · rw [h1]
    exact ⟨by simp, by simp⟩
  · rw [h1]
    refine ⟨by simp, ?_⟩
    rintro ⟨⟨s1, hs1, hb⟩, ⟨s2, hs2, hsw⟩⟩
    rw [List.mem_singleton] at hs1 hs2
    subst hs1
    subst hs2
    rw [hb] at hsw
    exact SignalType.noConfusion hsw

/-- C10 (witness): a call under the repository's test configuration
(multiplier 2). -/
theorem c10_at_most_one_signal_when_mult_nonneg_witness :
    (0 : ℚ) ≤ vwapCfgPos.vwapStdMultiplier ∧
    ((vwapProcessKline vwapCfgPos constOracle 0 calmBuffer vwapStFresh calmKline).1.length ≤ 1 ∧
     ¬ ((∃ s ∈ (vwapProcessKline vwapCfgPos constOracle 0 calmBuffer vwapStFresh calmKline).1,
           s.signalType = SignalType.buy) ∧
        (∃ s ∈ (vwapProcessKline vwapCfgPos constOracle 0 calmBuffer vwapStFresh calmKline).1,
           s.signalType = SignalType.sell))) :=
  ⟨by decide,
   c10_at_most_one_signal_when_mult_nonneg vwapCfgPos constOracle 0 calmBuffer vwapStFresh
     calmKline (by decide) (by decide)⟩

/-- C4 (counterexample): with a negative `vwap_std_multiplier` (accepted
by `_validate_config`) a single call emits two distinct signals — a BUY
and a SELL — both stamped with the same instant, so their creation
timestamps are 0 seconds apart, violating the 60-second debounce
bound. -/
theorem c4_counterexample_two_signals_same_instant :
    runProcessCalls vwapCfgNeg constOracle
        [{ now := 0, klines := calmBuffer, kline := calmKline }] vwapStFresh =
      [{ signalType := SignalType.buy, price := 100, confidence := 19 / 20, createdAt := 0 },
       { signalType := SignalType.sell, price := 100, confidence := 19 / 20, createdAt := 0 }] ∧
    ¬ List.Pairwise (fun a b => a.createdAt + 60 ≤ b.createdAt)
        (runProcessCalls vwapCfgNeg constOracle
          [{ now := 0, klines := calmBuffer, kline := calmKline }] vwapStFresh) := by
  have hl : runProcessCalls vwapCfgNeg constOracle
      [{ now := 0, klines := calmBuffer, kline := calmKline }] vwapStFresh =
      [{ signalType := SignalType.buy, price := 100, confidence := 19 / 20, createdAt := 0 },
       { signalType := SignalType.sell, price := 100, confidence := 19 / 20, createdAt := 0 }] := by
    with_unfolding_all rfl
  refine ⟨hl, ?_⟩
  rw [hl]
  intro h
  rcases List.pairwise_cons.mp h with ⟨hr, _⟩
  have h2 := hr _ (List.mem_singleton_self _)
  norm_num at h2

/-- C4 (amended): provided the configured `vwap_std_multiplier` is
non-negative (so a call emits at most one signal) and `vwap_std` is
non-negative, over any sequence of `process_kline` calls on one instance
the emitted signals' creation timestamps are pairwise at least 60
seconds apart — the debounce interval is the hardcoded 60-second
constant of `process_kline`, not a configuration parameter. -/
theorem c4_signals_debounced_when_mult_nonneg (cfg : VwapCfg)
    (oracle : List Kline → IndRaw) (calls : List IngestCall) (st : VwapState)
    (hm : 0 ≤ cfg.vwapStdMultiplier) (hstd : ∀ ks, 0 ≤ (oracle ks).vwapStd) :
    List.Pairwise (fun a b => a.createdAt + 60 ≤ b.createdAt)
      (runProcessCalls cfg oracle calls st) :=
  (runProcessCalls_gap cfg oracle hm hstd calls st).1

/-- C4 (witness): three calls at 0 s, 30 s and 120 s. -/
theorem c4_signals_debounced_when_mult_nonneg_witness :
    (0 : ℚ) ≤ vwapCfgPos.vwapStdMultiplier ∧
    List.Pairwise (fun a b => a.createdAt + 60 ≤ b.createdAt)
      (runProcessCalls vwapCfgPos constOracle demoCalls vwapStFresh) :=
  ⟨by decide,
   c4_signals_debounced_when_mult_nonneg vwapCfgPos constOracle demoCalls vwapStFresh
     (by decide) (fun _ => by norm_num [constOracle])⟩

/-- C9 (counterexample): a failed renewal attempt (extend and re-mint
both failing) leaves the recorded expiry unchanged, so after two failed
attempts the third renewal attempt runs 1800 s *after* the recorded
expiry — `expiry − now` is not greater than zero at that attempt. -/
theorem c9_counterexample_failed_renewals :
    renewalMargin 0 [false, false] 3 = -1800 ∧
    ¬ (0 < renewalMargin 0 [false, false] 3) := by
  have h : renewalMargin 0 [false, false] 3 = -1800 := by with_unfolding_all rfl
  refine ⟨h, ?_⟩
  rw [h]
  norm_num

/-- C9 (amended): at any renewal attempt all of whose preceding attempts
succeeded, `expiry − now` equals 1800 s — renewal happens strictly
before expiry exactly because the 1800-second keepalive interval is
strictly shorter than the 3600-second lease lifetime recorded at
creation or renewal. -/
theorem c9_renewal_before_expiry_when_renewals_succeed (t0 : ℚ)
    (outcomes : List Bool) (n : Nat) (h1 : 1 ≤ n)
    (hlen : n - 1 ≤ outcomes.length)
    (hok : ∀ b ∈ outcomes.take (n - 1), b = true) :
    renewalMargin t0 outcomes n = 1800 := by
  have htk : outcomes.take (n - 1) = List.replicate (n - 1) true := by
    rw [List.eq_replicate_iff]
    exact ⟨by rw [List.length_take]; omega, hok⟩
  rw [renewalMargin, leaseExpiry, htk, renewalAttemptTime]
  rcases Nat.exists_eq_add_of_le h1 with ⟨m, rfl⟩
  cases m with
  | zero =>
    simp [leaseExpiryAux]
    ring
  | succ p =>
    have hm1 : (1 + (p + 1)) - 1 = p + 1 := by omega
    rw [hm1, leaseExpiryAux_all_true]
    push_cast
    ring

/-- C9 (witness): the third renewal attempt after two successful ones
has a 1800-second margin. -/
theorem c9_renewal_before_expiry_when_renewals_succeed_witness :
    1 ≤ 3 ∧ renewalMargin 0 [true, true] 3 = 1800 :=
  ⟨by decide,
   c9_renewal_before_expiry_when_renewals_succeed 0 [true, true] 3 (by decide) (by decide)
     (by decide)⟩

end AutoTrader
